import Mathlib

/-!
Verification of the Signal Equalizer frontend core
(`Frontend/app/src/contexts/AudioContext.jsx`,
`Frontend/app/src/components/GenericMode.jsx`,
`Frontend/app/src/components/modes/GenericMode.jsx`).

Numbers are modelled by real numbers.  JavaScript floating-point `NaN`
(which arises in the source from `0 / 0` inside `generateGainArray`,
and from reading past the end of an array before multiplying) is
modelled by `Option ℝ`: `none` is NaN/undefined, `some x` is the finite
value `x`.  Division returning `none` on a zero divisor is faithful
here because the only divisions feed straight into `Math.cos` and a
product, and in JS both `0/0 = NaN` and `x/0 = ±Infinity` turn into
`NaN` after `Math.cos`.
-/

/-- One equalizer band as held in React state (`sliders` array):
`{ id, centerFreq, width, gain, label }`. -/
structure Slider where
  id : ℤ
  centerFreq : ℝ
  width : ℝ
  gain : ℝ
  label : String

/-- JS division as used in `generateGainArray`: a zero divisor produces a
non-finite value (NaN or ±Infinity), modelled as `none`. -/
noncomputable def jsDiv (x y : ℝ) : Option ℝ :=
  if y = 0 then none else some (x / y)

/-- JS multiplication on possibly-NaN values: NaN (or undefined) on either
side yields NaN. -/
def jsMul (x y : Option ℝ) : Option ℝ :=
  match x, y with
  | some a, some b => some (a * b)
  | _, _ => none

/-- The body of the inner loop of `generateGainArray` for one band `b` and
one frequency-bin value `freq`, acting on the current accumulator entry
`gains[i]`:

```js
const distance = Math.abs(freq - centerFreq);
if (distance <= halfWidth) {
  const norm = distance / halfWidth;
  const smooth = Math.cos((norm * Math.PI) / 2);
  const smoothGain = 1 + (gain - 1) * smooth;
  gains[i] *= smoothGain;
}
```
-/
noncomputable def sliderStep (b : Slider) (freq : ℝ) (g : Option ℝ) : Option ℝ :=
  let halfWidth := b.width / 2
  let distance := |freq - b.centerFreq|
  if distance ≤ halfWidth then
    let norm := jsDiv distance halfWidth
    let smooth := norm.map (fun n => Real.cos ((n * Real.pi) / 2))
    let smoothGain := smooth.map (fun s => 1 + (b.gain - 1) * s)
    jsMul g smoothGain
  else g

/-- `generateGainArray(sliders, frequencyBins)`: starts from an array of
`1.0` of the same length as `frequencyBins` and, for each slider in order,
updates every entry by `sliderStep`. -/
noncomputable def generateGainArray (sliders : List Slider) (frequencyBins : List ℝ) :
    List (Option ℝ) :=
  sliders.foldl
    (fun gains b => List.zipWith (fun freq g => sliderStep b freq g) frequencyBins gains)
    (List.replicate frequencyBins.length (some (1 : ℝ)))

/-- The gain accumulated at a single frequency `f`: fold of `sliderStep`
over the sliders starting from `1.0`.  `generateGainArray` is pointwise
equal to this (see `generateGainArray_eq_map`). -/
noncomputable def gainAt (sliders : List Slider) (f : ℝ) : Option ℝ :=
  sliders.foldl (fun g b => sliderStep b f g) (some 1)

/-- Whether band `b` covers frequency `f`: `distance <= halfWidth`. -/
def covers (f : ℝ) (b : Slider) : Prop :=
  |f - b.centerFreq| ≤ b.width / 2

noncomputable instance : DecidablePred fun b => covers f b := fun _ =>
  Real.decidableLE _ _

/-- The local contribution of a covering band at `f`, as the spec's formula
writes it: `1 + (gain - 1) * cos((distance / halfWidth) * π / 2)`. -/
noncomputable def bandTerm (f : ℝ) (b : Slider) : ℝ :=
  1 + (b.gain - 1) * Real.cos (|f - b.centerFreq| / (b.width / 2) * Real.pi / 2)

/-- The spec-side value of the gain curve at `f`: the product of the local
contributions of the covering bands (`1` when no band covers `f`). -/
noncomputable def claimValue (sliders : List Slider) (f : ℝ) : ℝ :=
  ((sliders.filter fun b => decide (covers f b)).map (bandTerm f)).prod

/-- The multiplicative contribution of band `b` at frequency `f` (`some 1`
when the band does not cover `f`); `sliderStep` multiplies the accumulator
by exactly this (see `sliderStep_eq_jsMul`). -/
noncomputable def contribOpt (b : Slider) (f : ℝ) : Option ℝ :=
  if |f - b.centerFreq| ≤ b.width / 2 then
    ((jsDiv |f - b.centerFreq| (b.width / 2)).map
      (fun n => Real.cos ((n * Real.pi) / 2))).map (fun s => 1 + (b.gain - 1) * s)
  else some 1

/-- A Web Audio `AudioBuffer` as the code uses it: channel count, frame
count, sample rate, and one sample array per channel.  A sample is `none`
when it is JS `NaN`. -/
structure AudioBuffer where
  numberOfChannels : ℕ
  length : ℕ
  sampleRate : ℝ
  channels : List (List (Option ℝ))

/-- Fallback value for reading a missing buffer out of the store. -/
def emptyBuffer : AudioBuffer := ⟨0, 0, 0, []⟩

/-- An indexed array read whose result is about to be multiplied: reading
past the end gives `undefined`, which multiplication turns into NaN, so an
out-of-range read is modelled directly as `none`. -/
def readSample (data : List (Option ℝ)) (i : ℕ) : Option ℝ :=
  data.getD i none

/-- `applySimpleProcessing(audioBuffer, gainArray)`: clones the buffer
shape via `createBuffer(numberOfChannels, length, sampleRate)` and fills
`outputData[i] = inputData[i] * gainArray[i]` for every channel and every
`i < audioBuffer.length`. -/
def applySimpleProcessing (audioBuffer : AudioBuffer) (gainArray : List (Option ℝ)) :
    AudioBuffer :=
  { numberOfChannels := audioBuffer.numberOfChannels
    length := audioBuffer.length
    sampleRate := audioBuffer.sampleRate
    channels := (List.range audioBuffer.numberOfChannels).map fun ch =>
      (List.range audioBuffer.length).map fun i =>
        jsMul (readSample (audioBuffer.channels.getD ch []) i) (readSample gainArray i) }

/-- The observable outcome of the `fetch` to `/api/process-audio`:
`ok`/`status` collapse to the `ok` flag the code tests, and a response
body without a usable `processedAudio` array is `processedAudio = none`
(accessing `.length` on it throws, landing in the same `catch`). -/
structure BackendResponse where
  ok : Bool
  processedAudio : Option (List (Option ℝ))

/-- `processWithBackend(audioBuffer, bands, gainArray)` with the network
made explicit: `fetchResult = none` is a rejected `fetch` (unreachable
service).  Every failure path lands in the `catch`, which returns
`applySimpleProcessing(audioBuffer, gainArray)`; on success a fresh
one-channel buffer holding the response samples is returned. -/
def processWithBackend (fetchResult : Option BackendResponse)
    (audioBuffer : AudioBuffer) (gainArray : List (Option ℝ)) : AudioBuffer :=
  match fetchResult with
  | some response =>
    if response.ok then
      match response.processedAudio with
      | some processedAudio =>
          { numberOfChannels := 1
            length := processedAudio.length
            sampleRate := audioBuffer.sampleRate
            channels := [processedAudio] }
      | none => applySimpleProcessing audioBuffer gainArray
    else applySimpleProcessing audioBuffer gainArray
  | none => applySimpleProcessing audioBuffer gainArray

/-- `applySimpleProcessing` at the level of the buffer store: the input
buffer is named by its index in the store, `createBuffer` allocates a
fresh buffer at a fresh index (`store.length`), and all sample writes
target only that fresh buffer.  Returns the new store and the index of
the processed buffer. -/
def applySimpleProcessingS (store : List AudioBuffer) (bufId : ℕ)
    (gainArray : List (Option ℝ)) : List AudioBuffer × ℕ :=
  (store ++ [applySimpleProcessing (store.getD bufId emptyBuffer) gainArray], store.length)

/-- The argument object of `addSlider`/`updateSlider`: a JS object whose
keys may each be absent (`none`). -/
structure SliderSpec where
  id : Option ℤ
  centerFreq : Option ℝ
  width : Option ℝ
  gain : Option ℝ
  label : Option String

/-- `addSlider(sliderData)`; `now` is the value of `Date.now()` at the
call.  The object literal fills defaults first and then spreads
`...sliderData` last, so any field present in `sliderData` — including
`id` — overrides the default and the freshly drawn `Date.now()` id.
Appends the new slider and returns it. -/
def addSlider (now : ℤ) (sliders : List Slider) (sliderData : SliderSpec) :
    Slider × List Slider :=
  let newSlider : Slider :=
    { id := sliderData.id.getD now
      centerFreq := sliderData.centerFreq.getD 1000
      width := sliderData.width.getD 500
      gain := sliderData.gain.getD 1
      label := sliderData.label.getD ("Band " ++ toString (sliders.length + 1)) }
  (newSlider, sliders ++ [newSlider])

/-- The spread merge `{ ...slider, ...updates }`. -/
def mergeSlider (s : Slider) (updates : SliderSpec) : Slider :=
  { id := updates.id.getD s.id
    centerFreq := updates.centerFreq.getD s.centerFreq
    width := updates.width.getD s.width
    gain := updates.gain.getD s.gain
    label := updates.label.getD s.label }

/-- `updateSlider(sliderId, updates)`: maps over the sliders, merging the
updates into the slider whose id matches and keeping every other slider;
there is no error path. -/
def updateSlider (sliders : List Slider) (sliderId : ℤ) (updates : SliderSpec) :
    List Slider :=
  sliders.map fun s => if s.id = sliderId then mergeSlider s updates else s

/-- One record of the persisted `sliders` array: `saveSettings` writes
`{ id, centerFreq, width, gain, label }` — the id included. -/
structure SavedSlider where
  id : ℤ
  centerFreq : ℝ
  width : ℝ
  gain : ℝ
  label : String

/-- The persisted settings record. -/
structure Settings where
  mode : String
  sliders : List SavedSlider
  timestamp : String
  version : String

/-- `saveSettings()`: serializes the current sliders. -/
def saveSettings (sliders : List Slider) (timestamp : String) : Settings :=
  { mode := "generic"
    sliders := sliders.map fun s => ⟨s.id, s.centerFreq, s.width, s.gain, s.label⟩
    timestamp := timestamp
    version := "1.0" }

/-- A loaded record is handed to `addSlider` whole, every key present. -/
def specOfSaved (sd : SavedSlider) : SliderSpec :=
  ⟨some sd.id, some sd.centerFreq, some sd.width, some sd.gain, some sd.label⟩

/-- The slider that re-adding one saved record produces: every field —
including the id — comes from the record, since every key is present and
`addSlider`'s trailing spread lets it override the defaults. -/
def sliderOfSaved (sd : SavedSlider) : Slider :=
  ⟨sd.id, sd.centerFreq, sd.width, sd.gain, sd.label⟩

/-- `loadSettings`: when the parsed record has `mode === "generic"`, the
code calls `removeSlider` on every existing slider and then (after a
timeout) `addSlider` on every saved record.  All of these calls are React
`useState` closures created in the same render: each one reads the SAME
stale `sliders` snapshot (`current`) — `removeSlider` computes
`sliders.filter(s => s.id !== id)` and `addSlider` computes
`[...sliders, newSlider]` from it, never a functional update — and the
consecutive `setSliders` writes overwrite one another, so only the last
written value survives each pass.  `times k` is the value of `Date.now()`
at the k-th `addSlider` call.  When the mode does not match, nothing
happens. -/
def loadSettings (times : ℕ → ℤ) (current : List Slider) (settings : Settings) :
    List Slider :=
  if settings.mode = "generic" then
    let afterRemovals :=
      current.foldl (fun _ s => current.filter fun x => x.id ≠ s.id) current
    (settings.sliders.foldl
      (fun (st : List Slider × ℕ) sd =>
        ((addSlider (times st.2) current (specOfSaved sd)).2, st.2 + 1))
      (afterRemovals, 0)).1
  else current

/-- The sample-copy loop of `playSelectedRegion`: `audioData` starts as a
zero-filled `Float32Array(segmentLength)`, and each in-range source sample
is copied, with `max(-1, min(1, sample * gainValue))` applied when
`useGain && gainValue !== 1.0`. -/
noncomputable def buildRegionSamples (channelData : List ℝ) (startSample segmentLength : ℕ)
    (useGain : Bool) (gainValue : ℝ) : List ℝ :=
  (List.range segmentLength).map fun i =>
    let sourceIndex := startSample + i
    if sourceIndex < channelData.length then
      if useGain = true ∧ gainValue ≠ 1 then
        max (-1) (min 1 (channelData.getD sourceIndex 0 * gainValue))
      else channelData.getD sourceIndex 0
    else 0

-- Bridge lemmas: `generateGainArray` as a per-frequency map.

lemma zipWith_snd {α β : Type} :
    ∀ (as : List α) (bs : List β), bs.length = as.length →
      List.zipWith (fun _ b => b) as bs = bs
  | [], [], _ => rfl
  | _ :: as, b :: bs, h => by
      simpa using zipWith_snd as bs (by simpa using h)

lemma zipWith_replicate_right {α β γ : Type} (F : α → β → γ) (c : β) :
    ∀ as : List α,
      List.zipWith F as (List.replicate as.length c) = as.map (fun a => F a c)
  | [] => rfl
  | a :: as => by
      simpa [List.replicate] using zipWith_replicate_right F c as

lemma foldl_zipWith (bins : List ℝ) :
    ∀ (sliders : List Slider) (gains : List (Option ℝ)),
      gains.length = bins.length →
      sliders.foldl
        (fun gs b => List.zipWith (fun freq g => sliderStep b freq g) bins gs) gains =
      List.zipWith (fun f g => sliders.foldl (fun g' b => sliderStep b f g') g) bins gains
  | [], gains, h => (zipWith_snd bins gains h).symm
  | b :: rest, gains, h => by
      rw [List.foldl_cons,
        foldl_zipWith bins rest (List.zipWith (fun freq g => sliderStep b freq g) bins gains)
          (by simp [h]),
        List.zipWith_zipWith_right]
      simp

/-- `generateGainArray` computes `gainAt` at every axis entry. -/
lemma generateGainArray_eq_map (sliders : List Slider) (bins : List ℝ) :
    generateGainArray sliders bins = bins.map (gainAt sliders) := by
  unfold generateGainArray
  rw [foldl_zipWith bins sliders _ (by simp), zipWith_replicate_right]
  rfl

-- Elementary facts about `jsMul` and `sliderStep`.

lemma jsMul_none_left (y : Option ℝ) : jsMul none y = none := by
  cases y <;> rfl

lemma jsMul_none_right (x : Option ℝ) : jsMul x none = none := by
  cases x <;> rfl

lemma sliderStep_none (b : Slider) (f : ℝ) : sliderStep b f none = none := by
  simp only [sliderStep]
  split
  · exact jsMul_none_left _
  · rfl

lemma foldl_sliderStep_none (f : ℝ) :
    ∀ sliders : List Slider,
      sliders.foldl (fun g b => sliderStep b f g) none = none
  | [] => rfl
  | b :: rest => by
      rw [List.foldl_cons, sliderStep_none]
      exact foldl_sliderStep_none f rest

/-- A band whose half-width is zero is entered only at its exact center,
where `norm = 0 / 0` is NaN: the accumulator entry becomes NaN. -/
lemma sliderStep_zero_width (b : Slider) (f : ℝ) (g : Option ℝ)
    (hw : b.width = 0) (hc : b.centerFreq = f) :
    sliderStep b f g = none := by
  simp only [sliderStep]
  rw [if_pos (by rw [hw, hc]; simp)]
  have hdiv : jsDiv |f - b.centerFreq| (b.width / 2) = none := by
    simp only [jsDiv]
    rw [if_pos (by rw [hw]; norm_num)]
  rw [hdiv]
  exact jsMul_none_right _

/-- Core computation: over bands of non-negative width none of which is a
zero-width band centered exactly at `f`, the fold multiplies the starting
value by the product of the covering bands' local contributions. -/
lemma foldl_sliderStep_eq_prod (f : ℝ) :
    ∀ (sliders : List Slider) (a : ℝ),
      (∀ b ∈ sliders, 0 ≤ b.width ∧ (b.width = 0 → b.centerFreq ≠ f)) →
      sliders.foldl (fun g b => sliderStep b f g) (some a) =
        some (a * claimValue sliders f)
  | [], a, _ => by simp [claimValue]
  | b :: rest, a, h => by
      have hb := h b (List.mem_cons_self b rest)
      have hrest : ∀ b' ∈ rest, 0 ≤ b'.width ∧ (b'.width = 0 → b'.centerFreq ≠ f) :=
        fun b' hb' => h b' (List.mem_cons_of_mem b hb')
      rw [List.foldl_cons]
      by_cases hc : covers f b
      · have hc' : |f - b.centerFreq| ≤ b.width / 2 := hc
        have hwpos : 0 < b.width := by
          rcases lt_or_eq_of_le hb.1 with hlt | heq
          · exact hlt
          · exfalso
            have hd : |f - b.centerFreq| = 0 :=
              le_antisymm (by simpa [← heq] using hc') (abs_nonneg _)
            have hcf : b.centerFreq = f := by
              have := abs_eq_zero.mp hd
              linarith
            exact hb.2 heq.symm hcf
        have hhw : b.width / 2 ≠ 0 := by positivity
        have hstep : sliderStep b f (some a) = some (a * bandTerm f b) := by
          simp only [sliderStep]
          rw [if_pos hc']
          simp only [jsDiv]
          rw [if_neg hhw]
          simp [jsMul, bandTerm]
        rw [hstep, foldl_sliderStep_eq_prod f rest (a * bandTerm f b) hrest]
        have hfilter : (b :: rest).filter (fun b' => decide (covers f b')) =
            b :: rest.filter (fun b' => decide (covers f b')) :=
          List.filter_cons_of_pos (decide_eq_true hc)
        simp only [claimValue, hfilter, List.map_cons, List.prod_cons]
        ring_nf
      · have hc' : ¬ |f - b.centerFreq| ≤ b.width / 2 := hc
        have hstep : sliderStep b f (some a) = some a := by
          simp only [sliderStep]
          rw [if_neg hc']
        rw [hstep, foldl_sliderStep_eq_prod f rest a hrest]
        have hfilter : (b :: rest).filter (fun b' => decide (covers f b')) =
            rest.filter (fun b' => decide (covers f b')) :=
          List.filter_cons_of_neg (by simpa using hc)
        simp only [claimValue, hfilter]

lemma gainAt_eq_claimValue (sliders : List Slider) (f : ℝ)
    (h : ∀ b ∈ sliders, 0 ≤ b.width ∧ (b.width = 0 → b.centerFreq ≠ f)) :
    gainAt sliders f = some (claimValue sliders f) := by
  unfold gainAt
  rw [foldl_sliderStep_eq_prod f sliders 1 h, one_mul]

lemma gainAt_none_of_zero_width_center (f : ℝ) :
    ∀ (sliders : List Slider) (g : Option ℝ),
      (∃ b ∈ sliders, b.width = 0 ∧ b.centerFreq = f) →
      sliders.foldl (fun g' b => sliderStep b f g') g = none
  | [], _, h => absurd h (by simp)
  | b :: rest, g, h => by
      rw [List.foldl_cons]
      rcases h with ⟨b', hb', hz⟩
      rcases List.mem_cons.mp hb' with heq | hmem
      · rw [sliderStep_zero_width b f g (heq ▸ hz.1) (heq ▸ hz.2)]
        exact foldl_sliderStep_none f rest
      · exact gainAt_none_of_zero_width_center f rest _ ⟨b', hmem, hz⟩

-- Commutativity of the per-band update, for permutation invariance.

lemma sliderStep_eq_jsMul (b : Slider) (f : ℝ) (g : Option ℝ) :
    sliderStep b f g = jsMul g (contribOpt b f) := by
  simp only [sliderStep, contribOpt]
  split
  · rfl
  · rcases g with _ | a
    · rfl
    · simp [jsMul]

lemma jsMul_right_comm (g x y : Option ℝ) :
    jsMul (jsMul g x) y = jsMul (jsMul g y) x := by
  rcases g with _ | a <;> rcases x with _ | b <;> rcases y with _ | c <;> try rfl
  show some (a * b * c) = some (a * c * b)
  rw [mul_right_comm]

lemma sliderStep_right_comm (f : ℝ) (b1 b2 : Slider) (g : Option ℝ) :
    sliderStep b2 f (sliderStep b1 f g) = sliderStep b1 f (sliderStep b2 f g) := by
  rw [sliderStep_eq_jsMul, sliderStep_eq_jsMul b1, sliderStep_eq_jsMul,
    sliderStep_eq_jsMul b2 f g, jsMul_right_comm]

lemma foldl_sliderStep_perm (f : ℝ) {l1 l2 : List Slider} (h : l1.Perm l2) :
    ∀ g, l1.foldl (fun g' b => sliderStep b f g') g =
      l2.foldl (fun g' b => sliderStep b f g') g := by
  induction h with
  | nil => intro g; rfl
  | cons x _ ih => intro g; simp only [List.foldl_cons]; exact ih _
  | swap x y l => intro g; simp only [List.foldl_cons]; rw [sliderStep_right_comm]
  | trans _ _ ih1 ih2 => intro g; rw [ih1 g, ih2 g]

lemma gainAt_perm {l1 l2 : List Slider} (h : l1.Perm l2) (f : ℝ) :
    gainAt l1 f = gainAt l2 f :=
  foldl_sliderStep_perm f h (some 1)

-- Loading back the persisted settings format: every write in the add pass
-- is computed from the same stale snapshot, so the last record's write is
-- the one that survives.

lemma load_foldl_stale (times : ℕ → ℤ) (current : List Slider) :
    ∀ (sds : List SavedSlider) (x : SavedSlider) (st0 : List Slider × ℕ),
      ((sds ++ [x]).foldl
        (fun (st : List Slider × ℕ) sd =>
          ((addSlider (times st.2) current (specOfSaved sd)).2, st.2 + 1))
        st0).1 = current ++ [sliderOfSaved x]
  | [], x, st0 => rfl
  | sd :: rest, x, st0 => by
      rw [List.cons_append, List.foldl_cons]
      exact load_foldl_stale times current rest x _

lemma load_save_stale (times : ℕ → ℤ) (current : List Slider)
    (init : List Slider) (lastS : Slider) (ts : String) :
    loadSettings times current (saveSettings (init ++ [lastS]) ts) =
      current ++ [lastS] := by
  unfold loadSettings saveSettings
  rw [if_pos rfl]
  simp only [List.map_append, List.map_cons, List.map_nil]
  rw [load_foldl_stale]
  rfl

-- Claims.

/-- C1: for every band list with all bandwidths positive and every
frequency axis, the synthesized gain curve value at each axis entry `f` is
the product, over the bands `b` with `|f - b.centerFreq| <= b.width / 2`,
of `1 + (b.gain - 1) * cos((|f - b.centerFreq| / (b.width / 2)) * π / 2)`;
bands outside that range contribute nothing, and with no covering band
(in particular an empty band list) the value is exactly `1` (the empty
product). -/
theorem gain_curve_formula (sliders : List Slider) (bins : List ℝ)
    (h : ∀ b ∈ sliders, 0 < b.width) :
    generateGainArray sliders bins = bins.map (fun f => some (claimValue sliders f)) := by
  rw [generateGainArray_eq_map]
  have hfun : ∀ f, gainAt sliders f = some (claimValue sliders f) := fun f =>
    gainAt_eq_claimValue sliders f (fun b hb =>
      ⟨le_of_lt (h b hb), fun hw => absurd hw (ne_of_gt (h b hb))⟩)
  rw [show gainAt sliders = fun f => some (claimValue sliders f) from funext hfun]

/-- C1 applied: one band (center 100, width 150, gain 2) on the axis
`[100, 500]`. -/
theorem gain_curve_formula_app :
    (∀ b ∈ [(⟨1, 100, 150, 2, "Bass"⟩ : Slider)], 0 < b.width) ∧
    generateGainArray [⟨1, 100, 150, 2, "Bass"⟩] [100, 500] =
      [(100 : ℝ), 500].map (fun f => some (claimValue [⟨1, 100, 150, 2, "Bass"⟩] f)) := by
  have h : ∀ b ∈ [(⟨1, 100, 150, 2, "Bass"⟩ : Slider)], 0 < b.width := by
    intro b hb
    rw [List.mem_singleton] at hb
    subst hb
    show (0 : ℝ) < 150
    norm_num
  exact ⟨h, gain_curve_formula _ _ h⟩

/-- C2 counterexample: a zero-bandwidth band centered at 100 makes the
curve entry at axis value 100 NaN (`none`): the code computes
`norm = 0 / 0`, so the entry is not a well-defined finite value and the
band's full gain is not applied at its center — the claim "no division by
zero, every entry finite" is false on the code. -/
theorem zero_width_band_nan_cex :
    generateGainArray [⟨1, 100, 0, 2, "Z"⟩] [(100 : ℝ)] = [none] := by
  have h : gainAt [(⟨1, 100, 0, 2, "Z"⟩ : Slider)] 100 = none := by
    simp only [gainAt, List.foldl_cons, List.foldl_nil]
    exact sliderStep_zero_width _ _ _ rfl rfl
  rw [generateGainArray_eq_map, List.map_cons, List.map_nil, h]

/-- C2 amended: a zero-bandwidth band affects at most its exact center
frequency — at every axis entry different from its center it contributes
nothing and, absent such centers, each entry is the usual well-defined
finite product — but at an axis entry equal to the center the code divides
`0 / 0` and the entry is NaN (`none`), not the band's full gain. -/
theorem zero_width_band_policy (sliders : List Slider) (bins : List ℝ)
    (h0 : ∀ b ∈ sliders, 0 ≤ b.width) (i : ℕ) (f : ℝ) (hf : bins[i]? = some f) :
    ((∃ b ∈ sliders, b.width = 0 ∧ b.centerFreq = f) →
      (generateGainArray sliders bins)[i]? = some none) ∧
    ((∀ b ∈ sliders, b.width = 0 → b.centerFreq ≠ f) →
      (generateGainArray sliders bins)[i]? = some (some (claimValue sliders f))) := by
  constructor
  · intro hex
    rw [generateGainArray_eq_map, List.getElem?_map, hf, Option.map_some']
    exact congrArg some (gainAt_none_of_zero_width_center f sliders (some 1) hex)
  · intro hall
    rw [generateGainArray_eq_map, List.getElem?_map, hf, Option.map_some']
    exact congrArg some (gainAt_eq_claimValue sliders f (fun b hb => ⟨h0 b hb, hall b hb⟩))

/-- C2 amended, applied: the zero-bandwidth band `⟨1, 100, 0, 2, "Z"⟩` on
the axis `[100]` yields NaN at its center. -/
theorem zero_width_band_policy_app :
    (∀ b ∈ [(⟨1, 100, 0, 2, "Z"⟩ : Slider)], 0 ≤ b.width) ∧
    ([(100 : ℝ)][0]? = some 100) ∧
    (∃ b ∈ [(⟨1, 100, 0, 2, "Z"⟩ : Slider)], b.width = 0 ∧ b.centerFreq = 100) ∧
    (generateGainArray [⟨1, 100, 0, 2, "Z"⟩] [(100 : ℝ)])[0]? = some none := by
  have h0 : ∀ b ∈ [(⟨1, 100, 0, 2, "Z"⟩ : Slider)], 0 ≤ b.width := by
    intro b hb
    rw [List.mem_singleton] at hb
    subst hb
    show (0 : ℝ) ≤ 0
    norm_num
  have hf : [(100 : ℝ)][0]? = some 100 := rfl
  have hex : ∃ b ∈ [(⟨1, 100, 0, 2, "Z"⟩ : Slider)], b.width = 0 ∧ b.centerFreq = 100 :=
    ⟨_, List.mem_singleton.mpr rfl, rfl, rfl⟩
  exact ⟨h0, hf, hex, (zero_width_band_policy _ _ h0 0 100 hf).1 hex⟩

/-- C3: two bands both centered at `f` with positive bandwidths and gains
`g1`, `g2` produce exactly `g1 * g2` at any axis entry equal to `f` —
multiplicative stacking, not `g1 + g2 - 1` and not `max g1 g2`. -/
theorem overlap_multiplicative_stacking (f w1 w2 g1 g2 : ℝ) (i1 i2 : ℤ)
    (l1 l2 : String) (hw1 : 0 < w1) (hw2 : 0 < w2)
    (bins : List ℝ) (j : ℕ) (hj : bins[j]? = some f) :
    (generateGainArray [⟨i1, f, w1, g1, l1⟩, ⟨i2, f, w2, g2, l2⟩] bins)[j]? =
      some (some (g1 * g2)) := by
  rw [generateGainArray_eq_map, List.getElem?_map, hj, Option.map_some']
  refine congrArg some ?_
  have hpos : ∀ b ∈ [(⟨i1, f, w1, g1, l1⟩ : Slider), ⟨i2, f, w2, g2, l2⟩],
      0 ≤ b.width ∧ (b.width = 0 → b.centerFreq ≠ f) := by
    intro b hb
    rcases List.mem_cons.mp hb with heq | hb2
    · subst heq
      exact ⟨le_of_lt hw1, fun hz => absurd hz (ne_of_gt hw1)⟩
    · rw [List.mem_singleton] at hb2
      subst hb2
      exact ⟨le_of_lt hw2, fun hz => absurd hz (ne_of_gt hw2)⟩
  rw [gainAt_eq_claimValue _ f hpos]
  refine congrArg some ?_
  have hc1 : covers f (⟨i1, f, w1, g1, l1⟩ : Slider) := by
    show |f - f| ≤ w1 / 2
    rw [sub_self, abs_zero]
    positivity
  have hc2 : covers f (⟨i2, f, w2, g2, l2⟩ : Slider) := by
    show |f - f| ≤ w2 / 2
    rw [sub_self, abs_zero]
    positivity
  have hd1 : decide (covers f (⟨i1, f, w1, g1, l1⟩ : Slider)) = true := decide_eq_true hc1
  have hd2 : decide (covers f (⟨i2, f, w2, g2, l2⟩ : Slider)) = true := decide_eq_true hc2
  unfold claimValue
  simp only [List.filter_cons, List.filter_nil, hd1, hd2, eq_self_iff_true, if_true,
    List.map_cons, List.map_nil, List.prod_cons, List.prod_nil]
  unfold bandTerm
  simp only [sub_self, abs_zero, zero_div, zero_mul, Real.cos_zero]
  ring

/-- C3 applied: bands with gains `3/2` and `1/2`, both centered at 1000,
on the axis `[500, 1000]`. -/
theorem overlap_multiplicative_stacking_app :
    (0 : ℝ) < 100 ∧ (0 : ℝ) < 200 ∧ (([500, 1000] : List ℝ)[1]? = some 1000) ∧
    (generateGainArray [⟨1, 1000, 100, 3 / 2, "A"⟩, ⟨2, 1000, 200, 1 / 2, "B"⟩]
        [500, 1000])[1]? = some (some ((3 / 2 : ℝ) * (1 / 2))) :=
  ⟨by norm_num, by norm_num, rfl,
    overlap_multiplicative_stacking 1000 100 200 (3 / 2) (1 / 2) 1 2 "A" "B"
      (by norm_num) (by norm_num) [500, 1000] 1 rfl⟩

/-- C4: permuting the band list leaves the synthesized gain curve
unchanged — band insertion order has no effect (composition is
commutative). -/
theorem band_order_irrelevant (sliders1 sliders2 : List Slider) (bins : List ℝ)
    (h : sliders1.Perm sliders2) :
    generateGainArray sliders1 bins = generateGainArray sliders2 bins := by
  rw [generateGainArray_eq_map, generateGainArray_eq_map,
    show gainAt sliders1 = gainAt sliders2 from funext (fun f => gainAt_perm h f)]

/-- C4 applied: swapping two concrete bands. -/
theorem band_order_irrelevant_app :
    ([(⟨1, 100, 150, 2, "A"⟩ : Slider), ⟨2, 1000, 800, 1 / 2, "B"⟩]).Perm
      [⟨2, 1000, 800, 1 / 2, "B"⟩, ⟨1, 100, 150, 2, "A"⟩] ∧
    generateGainArray [⟨1, 100, 150, 2, "A"⟩, ⟨2, 1000, 800, 1 / 2, "B"⟩] [100, 1000] =
      generateGainArray [⟨2, 1000, 800, 1 / 2, "B"⟩, ⟨1, 100, 150, 2, "A"⟩] [100, 1000] := by
  have hp := List.Perm.swap (⟨2, 1000, 800, 1 / 2, "B"⟩ : Slider) ⟨1, 100, 150, 2, "A"⟩ []
  exact ⟨hp, band_order_irrelevant _ _ _ hp⟩

/-- C5: whenever the external processing request fails — rejected fetch
(unreachable service), non-ok response, or a response body without a
usable `processedAudio` array — `processWithBackend` surfaces no error and
returns exactly the locally processed buffer `applySimpleProcessing`
produces from the same input buffer and gain array. -/
theorem backend_failure_fallback (fetchResult : Option BackendResponse)
    (audioBuffer : AudioBuffer) (gainArray : List (Option ℝ))
    (h : fetchResult = none ∨
      ∃ r, fetchResult = some r ∧ (r.ok = false ∨ r.processedAudio = none)) :
    processWithBackend fetchResult audioBuffer gainArray =
      applySimpleProcessing audioBuffer gainArray := by
  rcases h with rfl | ⟨r, rfl, hr⟩
  · rfl
  · obtain ⟨ok, pa⟩ := r
    rcases hr with hok | hpa
    · rw [show ok = false from hok]
      rfl
    · rw [show pa = none from hpa]
      cases ok <;> rfl

/-- C5 applied: a rejected fetch falls back to local processing. -/
theorem backend_failure_fallback_app :
    ((none : Option BackendResponse) = none ∨
      ∃ r, (none : Option BackendResponse) = some r ∧
        (r.ok = false ∨ r.processedAudio = none)) ∧
    processWithBackend none ⟨1, 2, 44100, [[some 1, some (-1)]]⟩ [some 2, some 0] =
      applySimpleProcessing ⟨1, 2, 44100, [[some 1, some (-1)]]⟩ [some 2, some 0] :=
  ⟨Or.inl rfl, backend_failure_fallback none _ _ (Or.inl rfl)⟩

/-- C6 counterexample: saving the two bands Bass and Mid and loading the
file back into an empty session yields only `[Mid]` — every
`removeSlider`/`addSlider` closure inside `loadSettings` reads the same
stale state snapshot and the consecutive state writes overwrite one
another, so only the last saved record survives.  The round trip does not
return an equal band list, falsifying the claim; the one surviving band
even keeps its saved id 2 while `Date.now()` is 999, so ids are not
regenerated either. -/
theorem settings_roundtrip_not_identity_cex :
    loadSettings (fun _ => 999) []
        (saveSettings [⟨1, 100, 150, 1, "Bass"⟩, ⟨2, 1000, 800, 1, "Mid"⟩] "t") =
      [⟨2, 1000, 800, 1, "Mid"⟩] ∧
    ([(⟨2, 1000, 800, 1, "Mid"⟩ : Slider)] ≠
      [⟨1, 100, 150, 1, "Bass"⟩, ⟨2, 1000, 800, 1, "Mid"⟩]) := by
  constructor
  · exact load_save_stale (fun _ => 999) [] [⟨1, 100, 150, 1, "Bass"⟩]
      ⟨2, 1000, 800, 1, "Mid"⟩ "t"
  · intro h
    simpa using congrArg List.length h

/-- C6 amended: loading does not reconstruct the saved list.  All the
`removeSlider`/`addSlider` calls read the same stale snapshot and their
state writes overwrite one another, so loading a file saved from a
nonempty slider list into a session whose list is `current` yields
`current ++ [b]`, where `b` is exactly the last saved band: that one band
keeps its `centerFreq`, `width`, `gain`, `label` — and its id, which is
restored from the file rather than regenerated — while every earlier
saved band is lost and the pre-load sliders remain. -/
theorem settings_load_keeps_only_last (times : ℕ → ℤ) (current : List Slider)
    (init : List Slider) (lastS : Slider) (ts : String) :
    loadSettings times current (saveSettings (init ++ [lastS]) ts) =
      current ++ [lastS] :=
  load_save_stale times current init lastS ts

/-- C7 counterexample: updating id 2 in a collection whose only band has
id 1 returns normally with the collection unchanged — `updateSlider` has no
failure path at all, so an absent id silently succeeds instead of failing
with `NotFoundError`. -/
theorem update_absent_id_cex :
    updateSlider [⟨1, 100, 50, 1, "A"⟩] 2 ⟨none, none, none, some 2, none⟩ =
      [⟨1, 100, 50, 1, "A"⟩] := by
  rfl

/-- C7 amended: `updateSlider` merges the provided fields into every band
whose id matches; when no band carries the id it leaves the collection
unchanged and does not fail — a silent no-op, not a loud `NotFoundError`. -/
theorem update_merge_or_noop (sliders : List Slider) (sliderId : ℤ)
    (updates : SliderSpec) :
    ((∀ s ∈ sliders, s.id ≠ sliderId) →
      updateSlider sliders sliderId updates = sliders) ∧
    (∀ s ∈ sliders, s.id = sliderId →
      mergeSlider s updates ∈ updateSlider sliders sliderId updates) := by
  constructor
  · intro h
    unfold updateSlider
    have hfix : ∀ s ∈ sliders,
        (if s.id = sliderId then mergeSlider s updates else s) = id s :=
      fun s hs => if_neg (h s hs)
    rw [List.map_congr_left hfix, List.map_id]
  · intro s hs heq
    unfold updateSlider
    exact List.mem_map.mpr ⟨s, hs, by rw [if_pos heq]⟩

/-- C7 amended, applied: a no-op update on an absent id, and a real merge
on a present one. -/
theorem update_merge_or_noop_app :
    (∀ s ∈ [(⟨1, 100, 50, 1, "A"⟩ : Slider)], s.id ≠ 2) ∧
    updateSlider [⟨1, 100, 50, 1, "A"⟩] 2 ⟨none, none, none, some 2, none⟩ =
      [⟨1, 100, 50, 1, "A"⟩] ∧
    mergeSlider ⟨1, 100, 50, 1, "A"⟩ ⟨none, none, none, some 2, none⟩ ∈
      updateSlider [⟨1, 100, 50, 1, "A"⟩] 1 ⟨none, none, none, some 2, none⟩ := by
  have h : ∀ s ∈ [(⟨1, 100, 50, 1, "A"⟩ : Slider)], s.id ≠ 2 := by
    intro s hs
    rw [List.mem_singleton] at hs
    subst hs
    decide
  exact ⟨h, (update_merge_or_noop _ 2 _).1 h,
    (update_merge_or_noop _ 1 _).2 _ (List.mem_singleton.mpr rfl) rfl⟩

/-- C8 counterexample: calling `addSlider` with a bandSpec that carries
`id: 5` while a band with id 5 already exists (and `Date.now()` is 999)
returns a band whose id is 5 — taken from the bandSpec by the trailing
spread, not freshly assigned — colliding with the existing band's id. -/
theorem add_id_collision_cex :
    ((addSlider 999 [⟨5, 100, 50, 1, "A"⟩]
        ⟨some 5, some 200, some 60, some 1, some "B"⟩).1).id = 5 ∧
    (5 : ℤ) ∈ ([(⟨5, 100, 50, 1, "A"⟩ : Slider)]).map Slider.id := by
  exact ⟨rfl, by simp⟩

/-- C8 amended: the freshly-drawn id is used, and is distinct from every
existing id, only when the bandSpec carries no id field and the current
`Date.now()` value differs from every existing id; the new band is then
appended.  (With an id in the bandSpec, or two calls in the same
millisecond, the id is not fresh — see the counterexample.) -/
theorem add_fresh_id_conditional (now : ℤ) (sliders : List Slider)
    (sliderData : SliderSpec) (hid : sliderData.id = none)
    (hnow : ∀ s ∈ sliders, s.id ≠ now) :
    (addSlider now sliders sliderData).1.id = now ∧
    (∀ s ∈ sliders, s.id ≠ (addSlider now sliders sliderData).1.id) ∧
    (addSlider now sliders sliderData).2 =
      sliders ++ [(addSlider now sliders sliderData).1] := by
  have h1 : (addSlider now sliders sliderData).1.id = now := by
    simp [addSlider, hid]
  refine ⟨h1, fun s hs => ?_, rfl⟩
  rw [h1]
  exact hnow s hs

/-- C8 amended, applied: an id-less bandSpec at time 999 over a band with
id 5. -/
theorem add_fresh_id_conditional_app :
    ((⟨none, some 200, some 60, some 1, some "B"⟩ : SliderSpec).id = none) ∧
    (∀ s ∈ [(⟨5, 100, 50, 1, "A"⟩ : Slider)], s.id ≠ 999) ∧
    (addSlider 999 [⟨5, 100, 50, 1, "A"⟩]
      ⟨none, some 200, some 60, some 1, some "B"⟩).1.id = 999 ∧
    (∀ s ∈ [(⟨5, 100, 50, 1, "A"⟩ : Slider)],
      s.id ≠ (addSlider 999 [⟨5, 100, 50, 1, "A"⟩]
        ⟨none, some 200, some 60, some 1, some "B"⟩).1.id) := by
  have hnow : ∀ s ∈ [(⟨5, 100, 50, 1, "A"⟩ : Slider)], s.id ≠ 999 := by
    intro s hs
    rw [List.mem_singleton] at hs
    subst hs
    decide
  obtain ⟨h1, h2, _⟩ :=
    add_fresh_id_conditional 999 [⟨5, 100, 50, 1, "A"⟩]
      ⟨none, some 200, some 60, some 1, some "B"⟩ rfl hnow
  exact ⟨rfl, hnow, h1, h2⟩

lemma getD_append_length {α : Type} (l : List α) (x d : α) :
    (l ++ [x]).getD l.length d = x := by
  induction l with
  | nil => rfl
  | cons a l ih => simpa using ih

/-- C9: local signal application allocates a fresh output buffer (a new
index past every existing buffer), leaves the input buffer — and every
other stored buffer — bitwise unchanged, and the output buffer has the
input's length, channel count and sample rate. -/
theorem apply_processing_frame (store : List AudioBuffer) (bufId : ℕ)
    (gainArray : List (Option ℝ)) (h : bufId < store.length) :
    (applySimpleProcessingS store bufId gainArray).2 = store.length ∧
    (applySimpleProcessingS store bufId gainArray).2 ≠ bufId ∧
    (∀ j, j < store.length →
      ((applySimpleProcessingS store bufId gainArray).1)[j]? = store[j]?) ∧
    (((applySimpleProcessingS store bufId gainArray).1).getD
        (applySimpleProcessingS store bufId gainArray).2 emptyBuffer).length =
      (store.getD bufId emptyBuffer).length ∧
    (((applySimpleProcessingS store bufId gainArray).1).getD
        (applySimpleProcessingS store bufId gainArray).2 emptyBuffer).numberOfChannels =
      (store.getD bufId emptyBuffer).numberOfChannels ∧
    (((applySimpleProcessingS store bufId gainArray).1).getD
        (applySimpleProcessingS store bufId gainArray).2 emptyBuffer).sampleRate =
      (store.getD bufId emptyBuffer).sampleRate := by
  have hnew : ((applySimpleProcessingS store bufId gainArray).1).getD
      (applySimpleProcessingS store bufId gainArray).2 emptyBuffer =
      applySimpleProcessing (store.getD bufId emptyBuffer) gainArray :=
    getD_append_length store _ _
  refine ⟨rfl, ne_of_gt h, fun j hj => List.getElem?_append_left hj, ?_, ?_, ?_⟩ <;>
    rw [hnew] <;> rfl

/-- C9 applied: a one-buffer store. -/
theorem apply_processing_frame_app :
    0 < ([(⟨1, 1, 44100, [[some 1]]⟩ : AudioBuffer)] : List AudioBuffer).length ∧
    (applySimpleProcessingS [⟨1, 1, 44100, [[some 1]]⟩] 0 [some 2]).2 = 1 ∧
    (applySimpleProcessingS [⟨1, 1, 44100, [[some 1]]⟩] 0 [some 2]).2 ≠ 0 ∧
    ((applySimpleProcessingS [⟨1, 1, 44100, [[some 1]]⟩] 0 [some 2]).1)[0]? =
      ([(⟨1, 1, 44100, [[some 1]]⟩ : AudioBuffer)] : List AudioBuffer)[0]? ∧
    (((applySimpleProcessingS [⟨1, 1, 44100, [[some 1]]⟩] 0 [some 2]).1).getD
        (applySimpleProcessingS [⟨1, 1, 44100, [[some 1]]⟩] 0 [some 2]).2
        emptyBuffer).length =
      (([(⟨1, 1, 44100, [[some 1]]⟩ : AudioBuffer)] : List AudioBuffer).getD 0
        emptyBuffer).length := by
  have h : (0 : ℕ) < ([(⟨1, 1, 44100, [[some 1]]⟩ : AudioBuffer)] : List AudioBuffer).length := by
    simp
  obtain ⟨h1, h2, h3, h4, _, _⟩ :=
    apply_processing_frame [⟨1, 1, 44100, [[some 1]]⟩] 0 [some 2] h
  exact ⟨h, h1, h2, h3 0 h, h4⟩

/-- C10: in the region-preview copy loop, with `useGain` and a gain other
than 1 every produced sample is the source sample multiplied by the gain
and clamped to `[-1, 1]` via `max(-1, min(1, ·))`; with `useGain` off or
gain exactly 1 the samples are copied unchanged. -/
theorem region_preview_clamp (channelData : List ℝ) (startSample segmentLength : ℕ)
    (gainValue : ℝ) (hlen : startSample + segmentLength ≤ channelData.length) :
    (gainValue ≠ 1 → ∀ i, i < segmentLength →
      (buildRegionSamples channelData startSample segmentLength true gainValue)[i]? =
        some (max (-1) (min 1 (channelData.getD (startSample + i) 0 * gainValue)))) ∧
    (∀ useGain : Bool, useGain = false ∨ gainValue = 1 → ∀ i, i < segmentLength →
      (buildRegionSamples channelData startSample segmentLength useGain gainValue)[i]? =
        some (channelData.getD (startSample + i) 0)) := by
  have hidx : ∀ i, i < segmentLength → startSample + i < channelData.length := by
    intro i hi
    omega
  have hget : ∀ (ug : Bool) i, i < segmentLength →
      (buildRegionSamples channelData startSample segmentLength ug gainValue)[i]? =
      some (if startSample + i < channelData.length then
        (if ug = true ∧ gainValue ≠ 1 then
          max (-1) (min 1 (channelData.getD (startSample + i) 0 * gainValue))
        else channelData.getD (startSample + i) 0)
      else 0) := by
    intro ug i hi
    unfold buildRegionSamples
    rw [List.getElem?_map, List.getElem?_range hi]
    rfl
  constructor
  · intro hg i hi
    rw [hget true i hi, if_pos (hidx i hi), if_pos ⟨rfl, hg⟩]
  · intro ug hug i hi
    have hneg : ¬(ug = true ∧ gainValue ≠ 1) := by
      rcases hug with hf | h1
      · intro hcon
        rw [hf] at hcon
        exact absurd hcon.1 (by simp)
      · intro hcon
        exact hcon.2 h1
    rw [hget ug i hi, if_pos (hidx i hi), if_neg hneg]

/-- C10 applied: samples `[2, -3, 1/2]` previewed at gain 2 are clamped;
with `useGain` off they are copied unchanged. -/
theorem region_preview_clamp_app :
    ((0 : ℕ) + 2 ≤ ([2, -3, 1 / 2] : List ℝ).length) ∧
    ((2 : ℝ) ≠ 1) ∧
    (buildRegionSamples [2, -3, 1 / 2] 0 2 true 2)[0]? =
      some (max (-1) (min 1 (([2, -3, 1 / 2] : List ℝ).getD (0 + 0) 0 * 2))) ∧
    (buildRegionSamples [2, -3, 1 / 2] 0 2 false 2)[1]? =
      some (([2, -3, 1 / 2] : List ℝ).getD (0 + 1) 0) := by
  have hlen : (0 : ℕ) + 2 ≤ ([2, -3, 1 / 2] : List ℝ).length := by
    simp
  obtain ⟨hA, hB⟩ := region_preview_clamp [2, -3, 1 / 2] 0 2 2 hlen
  exact ⟨hlen, by norm_num, hA (by norm_num) 0 (by norm_num), hB false (Or.inl rfl) 1 (by norm_num)⟩
